import Mathlib

/-!
Verification of `deepl-rs` (file `src/endpoint.rs`): the `Formality` option
encoder, the closed `Error` taxonomy, the `extract_deepl_error` translation
of non-success HTTP responses, and the builder/future mechanism generated by
the `impl_requester!` declaration.
-/

/-! ## Formality option encoder (`src/endpoint.rs`, `enum Formality`) -/

/-- The closed five-variant enumeration `Formality` from `src/endpoint.rs`. -/
inductive Formality where
  | Default
  | More
  | Less
  | PreferMore
  | PreferLess
deriving DecidableEq, Repr

/-- `impl AsRef<str> for Formality`: the exhaustive match in `as_ref`. -/
def Formality.as_ref : Formality → String
  | .Default => "default"
  | .More => "more"
  | .Less => "less"
  | .PreferMore => "prefer_more"
  | .PreferLess => "prefer_less"

/-- `impl ToString for Formality`: `self.as_ref().to_string()`. -/
def Formality.to_string (f : Formality) : String :=
  f.as_ref

/-- The Rust identifier of each `Formality` variant, as written in the source. -/
def Formality.variantName : Formality → String
  | .Default => "Default"
  | .More => "More"
  | .Less => "Less"
  | .PreferMore => "PreferMore"
  | .PreferLess => "PreferLess"

/-- Serde's `rename_all = "snake_case"` rule on a character list: every
character is lowercased, and an underscore is inserted before an uppercase
character that is not the first character (`RenameRule::SnakeCase`). -/
def snakeCaseChars : List Char → Bool → List Char
  | [], _ => []
  | c :: cs, first =>
    (if c.isUpper ∧ first = false then [Char.ofNat 95, c.toLower] else [c.toLower])
      ++ snakeCaseChars cs false

/-- Serde's `rename_all = "snake_case"` rule on a string. -/
def snakeCase (s : String) : String :=
  String.mk (snakeCaseChars s.data true)

/-- The wire name serde derives for a `Formality` variant under
`#[serde(rename_all = "snake_case")]`. -/
def Formality.serdeName (f : Formality) : String :=
  snakeCase f.variantName

/-! ## Error taxonomy (`src/endpoint.rs`, `enum Error`) -/

/-- Models `tokio::io::Error`: an OS-level I/O failure, identified here by its
display message. -/
structure IoError where
  message : String
deriving DecidableEq, Repr

/-- The closed error enumeration `Error` from `src/endpoint.rs`.
`ReadFileError` carries the file path and the underlying `tokio::io::Error`;
`WriteFileError` carries the destination path. -/
inductive Error where
  | InvalidResponse (description : String)
  | RequestFail (message : String)
  | ReadFileError (path : String) (cause : IoError)
  | NonExistDocument
  | TranslationNotDone
  | WriteFileError (path : String)
deriving DecidableEq, Repr

/-! ## Error translation (`src/endpoint.rs`, `extract_deepl_error`) -/

/-- The JSON envelope `DeepLErrorResp` with its single `message` field. -/
structure DeepLErrorResp where
  message : String
deriving DecidableEq, Repr

/-- `extract_deepl_error`, generic over the serde/reqwest JSON decoding of the
response body into `DeepLErrorResp` (an external library call, passed here as
the function `decode`; its `Except.error` case carries the decode failure's
display message). On decode failure the function returns
`Error::InvalidResponse(format!("invalid error response: {err}"))` via
`map_err` and `?`; on decode success it returns
`Err(Error::RequestFail(resp.message))`. -/
def extract_deepl_error (T : Type) (decode : String → Except String DeepLErrorResp)
    (body : String) : Except Error T :=
  match decode body with
  | .error err => .error (.InvalidResponse ("invalid error response: " ++ err))
  | .ok resp => .error (.RequestFail resp.message)

/-- A minimal concrete decoder used to instantiate `extract_deepl_error` on
the spec's scenarios: accepts exactly a compact JSON object with a single
`message` field holding a string without escapes, as serde would decode
`DeepLErrorResp` from such a body, and rejects anything else with a
description of the failure. -/
def jsonDecodeMessageEnvelope (body : String) : Except String DeepLErrorResp :=
  match body.data with
  | c :: rest =>
    if c = Char.ofNat 123 then
      let prefixChars := "\"message\":\"".data
      if rest.take prefixChars.length = prefixChars then
        let afterKey := rest.drop prefixChars.length
        let msgChars := afterKey.takeWhile (fun c => c ≠ '"')
        let afterMsg := afterKey.drop msgChars.length
        if afterMsg = ['"', Char.ofNat 125] then
          .ok ⟨String.mk msgChars⟩
        else
          .error "EOF while parsing an object"
      else
        .error "missing field message"
    else
      .error "expected value"
  | _ => .error "expected value"

/-! ## Deferred-request builder (`src/endpoint.rs`, `impl_requester!`) -/

/-- The builder struct generated by `impl_requester!`, generic over the
concrete endpoint configuration: `Client` is the borrowed `DeepLApi` handle,
`μ` indexes the `@must` fields (of types `MT`), `ο` indexes the `@optional`
fields (of types `OT`); in the generated struct every optional field has type
`Option<$opt_type>`. -/
structure Requester (Client μ ο : Type) (MT : μ → Type) (OT : ο → Type) where
  client : Client
  must : ∀ i, MT i
  opt : ∀ i, Option (OT i)

/-- The generated constructor `fn new`: stores the client borrow and every
required field, and initializes every optional field to `None`. -/
def Requester.new {Client μ ο : Type} {MT : μ → Type} {OT : ο → Type}
    (client : Client) (must : ∀ i, MT i) : Requester Client μ ο MT OT :=
  { client := client, must := must, opt := fun _ => none }

/-- A generated fluent setter `fn $opt_field`: `self.$opt_field =
Some($opt_field); self` — stores the value of one optional field as `Some`
and returns the updated builder for chaining. -/
def Requester.set {Client μ ο : Type} {MT : μ → Type} {OT : ο → Type}
    [DecidableEq ο] (r : Requester Client μ ο MT OT) (i : ο) (v : OT i) :
    Requester Client μ ο MT OT :=
  { r with opt := Function.update r.opt i (some v) }

/-- `std::task::Poll`: the outcome of one poll of a future. -/
inductive Poll (T : Type) where
  | Ready (value : T)
  | Pending
deriving DecidableEq, Repr

/-- A pollable unit of work (the `Pollable` boxed future): it completes with
a value after finitely many polls, each earlier poll returning `Pending`. -/
inductive Pollable (T : Type) where
  | ready (value : T)
  | pending (rest : Pollable T)
deriving DecidableEq, Repr

/-- Polling a `Pollable` once: a completed unit yields `Ready` its value; an
unfinished unit yields `Pending` and advances to its remaining work. -/
def pollOnce {T : Type} : Pollable T → Poll T × Pollable T
  | .ready v => (.Ready v, .ready v)
  | .pending rest => (.Pending, rest)

/-- The body of the generated `Future::poll`: `let mut fut =
self.to_pollable(); fut.as_mut().poll(cx)` — synthesize a pollable unit of
work from the current builder state `s` with the `to_pollable` capability,
poll it once, and drop it (the advanced unit is a local discarded when `poll`
returns). -/
def requesterPoll {S T : Type} (to_pollable : S → Pollable T) (s : S) : Poll T :=
  (pollOnce (to_pollable s)).1

/-- Driving the generated future for `n` calls of `Future::poll`: returns the
number of times the `to_pollable` capability was invoked (each invocation
builds and submits one HTTP request) and the outcome of the last poll, if
any. The builder state `s` is unchanged between polls, since the generated
`poll` only reads the fields. -/
def runPolls {S T : Type} (to_pollable : S → Pollable T) (s : S) :
    Nat → Nat × Option (Poll T)
  | 0 => (0, none)
  | n + 1 =>
    let prev := runPolls to_pollable s n
    (prev.1 + 1, some (requesterPoll to_pollable s))

/-! ## Theorems -/

/-- C2: `Formality.as_ref` is a total pure function on the closed five-variant
enumeration, mapping `Default` to `"default"`, `More` to `"more"`, `Less` to
`"less"`, `PreferMore` to `"prefer_more"` and `PreferLess` to
`"prefer_less"`, and the enumeration has no other variant. -/
theorem formality_as_ref_table :
    Formality.as_ref .Default = "default" ∧
    Formality.as_ref .More = "more" ∧
    Formality.as_ref .Less = "less" ∧
    Formality.as_ref .PreferMore = "prefer_more" ∧
    Formality.as_ref .PreferLess = "prefer_less" ∧
    ∀ f : Formality, f = .Default ∨ f = .More ∨ f = .Less ∨
      f = .PreferMore ∨ f = .PreferLess := by
  refine ⟨rfl, rfl, rfl, rfl, rfl, fun f => ?_⟩
  cases f
  · exact Or.inl rfl
  · exact Or.inr (Or.inl rfl)
  · exact Or.inr (Or.inr (Or.inl rfl))
  · exact Or.inr (Or.inr (Or.inr (Or.inl rfl)))
  · exact Or.inr (Or.inr (Or.inr (Or.inr rfl)))

/-- C10: the two string renderings of `Formality` agree — `to_string` (which
delegates to `as_ref`) returns the same string as `as_ref`, and the serde
`snake_case` wire name of every variant coincides with the `as_ref` string. -/
theorem formality_renderings_agree (f : Formality) :
    f.to_string = f.as_ref ∧ f.serdeName = f.as_ref := by
  cases f <;> exact ⟨rfl, by decide⟩

/-- C7: every `Error` value is one of exactly six kinds, with `ReadFileError`
carrying a path and an underlying I/O cause and `WriteFileError` carrying the
destination path. -/
theorem error_taxonomy_closed (e : Error) :
    (∃ s, e = .InvalidResponse s) ∨ (∃ s, e = .RequestFail s) ∨
    (∃ p c, e = .ReadFileError p c) ∨ e = .NonExistDocument ∨
    e = .TranslationNotDone ∨ (∃ p, e = .WriteFileError p) := by
  cases e with
  | InvalidResponse s => exact Or.inl ⟨s, rfl⟩
  | RequestFail s => exact Or.inr (Or.inl ⟨s, rfl⟩)
  | ReadFileError p c => exact Or.inr (Or.inr (Or.inl ⟨p, c, rfl⟩))
  | NonExistDocument => exact Or.inr (Or.inr (Or.inr (Or.inl rfl)))
  | TranslationNotDone => exact Or.inr (Or.inr (Or.inr (Or.inr (Or.inl rfl))))
  | WriteFileError p => exact Or.inr (Or.inr (Or.inr (Or.inr (Or.inr ⟨p, rfl⟩))))

/-- C3: `extract_deepl_error` never returns a success value, and on a body
that decodes into the `message` envelope it returns `RequestFail` carrying
exactly the service's message, while on a body that does not decode it
returns `InvalidResponse` wrapping the decode failure's description. -/
theorem extract_deepl_error_branches (T : Type)
    (decode : String → Except String DeepLErrorResp) (body : String) :
    (∀ v : T, extract_deepl_error T decode body ≠ .ok v) ∧
    (∀ m, decode body = .ok ⟨m⟩ →
      extract_deepl_error T decode body = .error (.RequestFail m)) ∧
    (∀ e, decode body = .error e →
      extract_deepl_error T decode body =
        .error (.InvalidResponse ("invalid error response: " ++ e))) := by
  refine ⟨?_, ?_, ?_⟩
  · intro v hv
    unfold extract_deepl_error at hv
    cases hd : decode body <;> rw [hd] at hv <;> simp at hv
  · intro m hm
    unfold extract_deepl_error
    rw [hm]
  · intro e he
    unfold extract_deepl_error
    rw [he]

/-- C3 witness: the body with the quota-exceeded envelope decodes, and
`extract_deepl_error` turns it into `RequestFail "quota exceeded"`. -/
theorem extract_deepl_error_branches_witness :
    jsonDecodeMessageEnvelope "\x7b\"message\":\"quota exceeded\"\x7d" =
      .ok ⟨"quota exceeded"⟩ ∧
    extract_deepl_error Nat jsonDecodeMessageEnvelope
        "\x7b\"message\":\"quota exceeded\"\x7d" =
      .error (.RequestFail "quota exceeded") :=
  ⟨rfl,
    (extract_deepl_error_branches Nat jsonDecodeMessageEnvelope
      "\x7b\"message\":\"quota exceeded\"\x7d").2.1 "quota exceeded" rfl⟩

/-- C9: `extract_deepl_error` never returns through its `Ok` branch — for
every decoder and body, the result is an `error`, either `InvalidResponse` or
`RequestFail`. -/
theorem extract_deepl_error_never_ok (T : Type)
    (decode : String → Except String DeepLErrorResp) (body : String) :
    (∃ s, extract_deepl_error T decode body = .error (.InvalidResponse s)) ∨
    (∃ s, extract_deepl_error T decode body = .error (.RequestFail s)) := by
  unfold extract_deepl_error
  cases decode body with
  | error e => exact Or.inl ⟨"invalid error response: " ++ e, rfl⟩
  | ok resp => exact Or.inr ⟨resp.message, rfl⟩

/-- C4: the generated constructor stores the client borrow and each required
field verbatim, and initializes every optional field to `none`. -/
theorem requester_new_fields {Client μ ο : Type} {MT : μ → Type} {OT : ο → Type}
    (c : Client) (m : ∀ i, MT i) :
    (Requester.new c m : Requester Client μ ο MT OT).client = c ∧
    (∀ i, (Requester.new c m : Requester Client μ ο MT OT).must i = m i) ∧
    (∀ i, (Requester.new c m : Requester Client μ ο MT OT).opt i = none) :=
  ⟨rfl, fun _ => rfl, fun _ => rfl⟩

/-- C5: a fluent setter stores its value as `some` in the targeted optional
field of the builder it returns, and setting the same field again leaves
exactly the last value passed. -/
theorem requester_set_stores_last {Client μ ο : Type} {MT : μ → Type}
    {OT : ο → Type} [DecidableEq ο] (r : Requester Client μ ο MT OT) (i : ο)
    (v w : OT i) :
    (r.set i v).opt i = some v ∧ ((r.set i v).set i w).opt i = some w := by
  constructor <;> simp [Requester.set]

/-- C5 witness: on a two-optional-field builder, setting a field yields that
value and setting it twice keeps the last value. -/
theorem requester_set_stores_last_witness :
    (((Requester.new 0 (fun _ => ()) : Requester Nat Unit Bool (fun _ => Unit)
      (fun _ => Nat)).set true 1).opt true = some 1) ∧
    ((((Requester.new 0 (fun _ => ()) : Requester Nat Unit Bool (fun _ => Unit)
      (fun _ => Nat)).set true 1).set true 2).opt true = some 2) :=
  requester_set_stores_last
    (Requester.new 0 (fun _ => ()) : Requester Nat Unit Bool (fun _ => Unit)
      (fun _ => Nat)) true 1 2

/-- C6: a fluent setter changes only its own optional field — the client
borrow, every required field, and every other optional field of the builder
are unchanged. -/
theorem requester_set_frame {Client μ ο : Type} {MT : μ → Type} {OT : ο → Type}
    [DecidableEq ο] (r : Requester Client μ ο MT OT) (i : ο) (v : OT i) :
    (r.set i v).client = r.client ∧
    (∀ j, (r.set i v).must j = r.must j) ∧
    (∀ j, j ≠ i → (r.set i v).opt j = r.opt j) := by
  refine ⟨rfl, fun _ => rfl, fun j hj => ?_⟩
  simp [Requester.set, Function.update_noteq hj]

/-- C6 witness: on a two-optional-field builder, setting the field indexed
`true` leaves the field indexed `false` at its unset state. -/
theorem requester_set_frame_witness :
    ((Requester.new 0 (fun _ => ()) : Requester Nat Unit Bool (fun _ => Unit)
      (fun _ => Nat)).set true 5).opt false = none :=
  ((requester_set_frame
    (Requester.new 0 (fun _ => ()) : Requester Nat Unit Bool (fun _ => Unit)
      (fun _ => Nat)) true 5).2.2 false (by decide)).trans rfl

/-- C1: evaluating the generated `Future::poll` on a unit of work that needs
one `Pending` step before completing — after two polls the `to_pollable`
capability has been invoked twice (one request submission per poll) and the
future is still `Pending`: the unit of work is re-synthesized on every poll
instead of being synthesized once on the first poll and reused. -/
theorem requester_poll_resynthesizes_each_poll :
    runPolls (fun _ : Unit => Pollable.pending (Pollable.ready 0)) () 2 =
      (2, some Poll.Pending) := rfl

/-- C8: whenever driving the generated future returns `Ready v`, the value
`v` is exactly the output of the unit of work obtained from the
`to_pollable` capability (which must complete on its first poll), with no
transformation added by the builder mechanism. -/
theorem requester_await_passes_value_through {S T : Type}
    (to_pollable : S → Pollable T) (s : S) (n : Nat) (v : T)
    (h : (runPolls to_pollable s (n + 1)).2 = some (Poll.Ready v)) :
    to_pollable s = Pollable.ready v := by
  have h2 : requesterPoll to_pollable s = Poll.Ready v := by
    simpa [runPolls] using h
  cases hp : to_pollable s with
  | ready w =>
    rw [requesterPoll, hp] at h2
    simp [pollOnce] at h2
    rw [h2]
  | pending rest =>
    rw [requesterPoll, hp] at h2
    simp [pollOnce] at h2

/-- C8 witness: an error value produced by the unit of work propagates
through the generated `Future::poll` unchanged. -/
theorem requester_await_passes_value_through_witness :
    ((runPolls
        (fun _ : Unit =>
          Pollable.ready (.error (.RequestFail "quota exceeded") : Except Error Nat))
        () 1).2 =
      some (Poll.Ready (.error (.RequestFail "quota exceeded")))) ∧
    ((fun _ : Unit =>
        Pollable.ready (.error (.RequestFail "quota exceeded") : Except Error Nat)) () =
      Pollable.ready (.error (.RequestFail "quota exceeded"))) :=
  ⟨rfl,
    requester_await_passes_value_through
      (fun _ : Unit =>
        Pollable.ready (.error (.RequestFail "quota exceeded") : Except Error Nat))
      () 0 (.error (.RequestFail "quota exceeded")) rfl⟩
